import Mathlib

/-!
Verification development for the systemd service adapter
(`service_systemd_linux.go`).  The Go code is shallowly embedded:

* the service descriptor (`Config` plus its option bag) becomes a Lean
  structure with one field per descriptor field / option key;
* the filesystem under `/etc/systemd/system` becomes an association list
  from path to file content, threaded explicitly through the operations;
* the external control plane (`run("systemctl", ...)`) becomes an oracle
  `List String → Bool` saying which command invocations succeed, and every
  invocation is recorded in a trace;
* the two `text/template` constants `systemdScript` and `systemdSocket`
  are rendered by hand, line by line, exactly following the template text
  (including the newline that a false `{{if}}` leaves behind).
-/

/-- Errors returned by the adapter, one constructor per `return err` source
in the Go code.  `noUserService` is `errNoUserServiceSystemd`;
`alreadyExists` / `socketExists` are the two `fmt.Errorf` results in
`Install`; `runFailed` is a non-zero exit of the control-plane command;
`removeFailed` is `os.Remove` failing (in the model: the path is absent). -/
inductive Err where
  | noUserService : Err
  | alreadyExists : String → Err
  | socketExists : String → Err
  | runFailed : List String → Err
  | removeFailed : String → Err
deriving DecidableEq, Repr

/-- Modelled from the spec: the ServiceDescriptor.  The `Config` struct and
its option bag are declared outside this file; the spec (§3) lists the
fields (`Name`, `DisplayName`, `Description`, executable `Path`,
`Arguments`, `UserName`, `WorkingDirectory`, `ChRoot`, `UMask`,
`LimitNOFILE`, socket fields) and the option keys consulted with defaults
(user-scope service, reload signal, PID-file path, socket activation).
Options are flattened into typed fields; an absent optional string is the
empty string, matching the Go defaults `Option.string(key, "")`. -/
structure Config where
  Name : String
  DisplayName : String
  Description : String
  Path : String
  Arguments : List String
  UserName : String
  WorkingDirectory : String
  ChRoot : String
  UMask : String
  LimitNOFILE : String
  WithSocket : Bool
  SocketDescription : String
  SocketPort : String
  UserService : Bool
  ReloadSignal : String
  PIDFile : String
deriving DecidableEq, Repr

/-- The modelled filesystem: an association list from absolute path to file
content.  A freshly written file is prepended. -/
abbrev FS := List (String × String)

/-- Does a file exist at `p`?  This is `os.Stat(p)` succeeding. -/
def fsHas (fs : FS) (p : String) : Bool :=
  fs.any (fun e => e.1 == p)

/-- `os.Create(p)` followed by writing `content` (template execution). -/
def fsWrite (fs : FS) (p content : String) : FS :=
  (p, content) :: fs

/-- Drop every entry at path `p`. -/
def fsErase (fs : FS) (p : String) : FS :=
  fs.filter (fun e => !(e.1 == p))

/-- Content of the file at `p`, if present. -/
def fsGet (fs : FS) (p : String) : Option String :=
  (fs.find? (fun e => e.1 == p)).map (fun e => e.2)

/-- `os.Remove(p)`: fails when no file exists at `p`. -/
def fsRemove (fs : FS) (p : String) : Except Err FS :=
  if fsHas fs p then .ok (fsErase fs p) else .error (.removeFailed p)

/-- Result of a lifecycle operation: the returned Go error (`none` is a nil
error), the filesystem afterwards, and the trace of control-plane commands
passed to `run`, in invocation order. -/
structure OpResult where
  res : Option Err
  fs : FS
  cmds : List (List String)
deriving DecidableEq, Repr

/-- `configPath`: rejects user-scope services with the sentinel error,
otherwise derives the unit-file path from the name. -/
def configPath (c : Config) : Except Err String :=
  if c.UserService then .error .noUserService
  else .ok ("/etc/systemd/system/" ++ c.Name ++ ".service")

/-- `socketPath`: the socket-unit path derived from the name. -/
def socketPath (c : Config) : String :=
  "/etc/systemd/system/" ++ c.Name ++ ".socket"

/-- The unit-file path that `configPath` yields for a non-user service. -/
def serviceUnitPath (c : Config) : String :=
  "/etc/systemd/system/" ++ c.Name ++ ".service"

/-- Modelled from the spec: the set of characters the "cmd" escaping rule
treats as whitespace or shell metacharacters.  The template functions
`cmd`/`cmdEscape` referenced by the templates are declared outside this
file; the spec (§4.2) only says arguments are quoted when they contain
whitespace or shell metacharacters. -/
def isShellSpecialChar (c : Char) : Bool :=
  c == ' ' || c == '\t' || c == '\n' || c == '\'' || c == '"' || c == '\\' ||
  c == '$' || c == '\x60' || c == '!' || c == '#' || c == '&' || c == '(' ||
  c == ')' || c == '*' || c == ';' || c == '<' || c == '>' || c == '?' ||
  c == '[' || c == ']' || c == '^' || c == '|' || c == '~'

/-- One character of the stricter path escaping: metacharacters and
whitespace are backslash-escaped so the result stays one token. -/
def escChar (c : Char) : List Char :=
  if isShellSpecialChar c then ['\\', c] else [c]

/-- Modelled from the spec: `cmdEscape`, the stricter escaping pass used for
the executable path — it must keep the path a single unbroken shell token,
so every whitespace/metacharacter is backslash-escaped in place. -/
def cmdEscape (s : String) : String :=
  String.mk ((s.data.map escChar).flatten)

/-- One character of the single-quoted body: a quote character is closed,
escaped and reopened; everything else is literal inside single quotes. -/
def sqEsc (c : Char) : List Char :=
  if c = '\'' then ['\'', '\\', '\'', '\''] else [c]

/-- Modelled from the spec: `cmd`, the per-argument escaping rule — quote
the argument when it contains whitespace or a shell metacharacter (an empty
argument is also quoted, since it cannot otherwise form a token), otherwise
emit it bare. -/
def needsQuoting (s : String) : Bool :=
  s.data.isEmpty || s.data.any isShellSpecialChar

/-- Modelled from the spec: the "cmd" template function (see
`needsQuoting`). -/
def cmd (s : String) : String :=
  if needsQuoting s then String.mk ('\'' :: (s.data.map sqEsc).flatten ++ ['\''])
  else s

/-- The value of the `ExecStart=` line, from the template text
`ExecStart={{.Path|cmdEscape}}{{range .Arguments}} {{.|cmd}}{{end}}`. -/
def execStartValue (path : String) (args : List String) : String :=
  args.foldl (fun acc a => acc ++ " " ++ cmd a) (cmdEscape path)

/-- The lines of the rendered `systemdScript` template, in template order.
A false `{{if}}` contributes the empty string: the template text keeps the
newline that follows `{{end}}`, so the rendered unit keeps a blank line. -/
def systemdScriptLines (c : Config) : List String :=
  ["[Unit]",
   "Description=" ++ c.Description,
   "ConditionFileIsExecutable=" ++ cmdEscape c.Path,
   "## Uncomment for socket-based activation",
   "#Requires=" ++ (c.Name ++ ".socket"),
   "",
   "[Service]",
   "## Uncomment for socket-based activation",
   "#NonBlocking=true",
   "",
   "StartLimitInterval=5",
   "StartLimitBurst=10",
   "LimitNOFILE=" ++ c.LimitNOFILE,
   "ExecStart=" ++ execStartValue c.Path c.Arguments,
   if c.ChRoot = "" then "" else "RootDirectory=" ++ cmd c.ChRoot,
   if c.WorkingDirectory = "" then "" else "WorkingDirectory=" ++ cmdEscape c.WorkingDirectory,
   if c.UserName = "" then "" else "User=" ++ c.UserName,
   if c.ReloadSignal = "" then "" else "ExecReload=/bin/kill -" ++ (c.ReloadSignal ++ " \"$MAINPID\""),
   if c.PIDFile = "" then "" else "PIDFile=" ++ cmd c.PIDFile,
   "UMask=" ++ c.UMask,
   "Restart=always",
   "RestartSec=120",
   "EnvironmentFile=-/etc/sysconfig/" ++ c.Name,
   "",
   "[Install]",
   "WantedBy=multi-user.target"]

/-- The rendered service unit text: `systemdScript` executed against the
descriptor projection.  The template ends with a newline. -/
def systemdScript (c : Config) : String :=
  String.intercalate "\n" (systemdScriptLines c) ++ "\n"

/-- The lines of the rendered `systemdSocket` template, in template order. -/
def systemdSocketLines (c : Config) : List String :=
  ["[Unit]",
   "Description=" ++ c.SocketDescription,
   "",
   "[Socket]",
   "ListenStream=" ++ c.SocketPort,
   "NoDelay=true"]

/-- The rendered socket unit text. -/
def systemdSocket (c : Config) : String :=
  String.intercalate "\n" (systemdSocketLines c) ++ "\n"

/-- The argument vector of `run("systemctl", "enable", s.Name+".service")`. -/
def enableCmdOf (c : Config) : List String :=
  ["systemctl", "enable", c.Name ++ ".service"]

/-- The argument vector of `run("systemctl", "disable", s.Name+".service")`. -/
def disableCmdOf (c : Config) : List String :=
  ["systemctl", "disable", c.Name ++ ".service"]

/-- The argument vector of `run("systemctl", "daemon-reload")`. -/
def reloadCmd : List String :=
  ["systemctl", "daemon-reload"]

/-- `Install()`: compute the unit path (rejecting user scope), fail if the
unit file exists, create and render it, `systemctl enable`, then — only
when socket activation is requested — check/create/render the socket file,
and finally `systemctl daemon-reload`.  `ρ` is the control-plane oracle:
which `run` invocations exit successfully. -/
def Install (c : Config) (ρ : List String → Bool) (fs : FS) : OpResult :=
  match configPath c with
  | .error e => ⟨some e, fs, []⟩
  | .ok confPath =>
    if fsHas fs confPath then ⟨some (.alreadyExists confPath), fs, []⟩
    else
      let fs1 := fsWrite fs confPath (systemdScript c)
      if ρ (enableCmdOf c) then
        if c.WithSocket then
          let sp := socketPath c
          if fsHas fs1 sp then ⟨some (.socketExists sp), fs1, [enableCmdOf c]⟩
          else
            let fs2 := fsWrite fs1 sp (systemdSocket c)
            if ρ reloadCmd then ⟨none, fs2, [enableCmdOf c, reloadCmd]⟩
            else ⟨some (.runFailed reloadCmd), fs2, [enableCmdOf c, reloadCmd]⟩
        else
          if ρ reloadCmd then ⟨none, fs1, [enableCmdOf c, reloadCmd]⟩
          else ⟨some (.runFailed reloadCmd), fs1, [enableCmdOf c, reloadCmd]⟩
      else ⟨some (.runFailed (enableCmdOf c)), fs1, [enableCmdOf c]⟩

/-- `Uninstall()`: `systemctl disable`, then compute the unit path
(rejecting user scope), remove the unit file, then remove the socket file
unconditionally; the first failure returns. -/
def Uninstall (c : Config) (ρ : List String → Bool) (fs : FS) : OpResult :=
  if ρ (disableCmdOf c) then
    match configPath c with
    | .error e => ⟨some e, fs, [disableCmdOf c]⟩
    | .ok cp =>
      match fsRemove fs cp with
      | .error e => ⟨some e, fs, [disableCmdOf c]⟩
      | .ok fs1 =>
        match fsRemove fs1 (socketPath c) with
        | .error e => ⟨some e, fs1, [disableCmdOf c]⟩
        | .ok fs2 => ⟨none, fs2, [disableCmdOf c]⟩
  else ⟨some (.runFailed (disableCmdOf c)), fs, [disableCmdOf c]⟩

/-- Observable events of one `Run()` invocation, in order: the start hook
ran, the signal wait completed, the stop hook ran. -/
inductive RunEvent where
  | started : RunEvent
  | waitedSignal : RunEvent
  | stopped : RunEvent
deriving DecidableEq, Repr

/-- `Run()`: call the start hook; on error return it at once.  Otherwise run
the `RunWait` option (the default blocks on one SIGTERM/interrupt; a
caller-supplied no-op does not wait), then call the stop hook and return
its result.  `startRes`/`stopRes` are the hook results; `blocking` says
whether the default signal wait is in effect. -/
def Run (startRes stopRes : Option String) (blocking : Bool) :
    Option String × List RunEvent :=
  match startRes with
  | some e => (some e, [.started])
  | none =>
    (stopRes, [.started] ++ (if blocking then [.waitedSignal] else []) ++ [.stopped])

/-- Quoting state of the shell tokenizer: outside quotes, inside single
quotes, inside double quotes. -/
inductive ShMode where
  | norm : ShMode
  | single : ShMode
  | double : ShMode
deriving DecidableEq, Repr

/-- Core of a POSIX-shell-compatible word tokenizer: input characters,
current quoting mode, whether a word is in progress, the characters of the
word in progress (reversed), and the completed words.  Blanks split words;
single quotes protect everything up to the closing quote; double quotes
protect everything except `\x5c`-escapes of `"` `\x5c` `$` and backquote;
a backslash outside quotes makes the next character literal.  An
unterminated quote or trailing backslash fails. -/
def shTok : List Char → ShMode → Bool → List Char → List String → Option (List String)
  | [], .norm, iW, cur, acc =>
    some (if iW then acc ++ [String.mk cur.reverse] else acc)
  | [], .single, _, _, _ => none
  | [], .double, _, _, _ => none
  | c :: cs, .norm, iW, cur, acc =>
    if c = ' ' ∨ c = '\t' ∨ c = '\n' then
      shTok cs .norm false [] (if iW then acc ++ [String.mk cur.reverse] else acc)
    else if c = '\'' then shTok cs .single true cur acc
    else if c = '"' then shTok cs .double true cur acc
    else if c = '\\' then
      match cs with
      | [] => none
      | d :: ds => shTok ds .norm true (d :: cur) acc
    else shTok cs .norm true (c :: cur) acc
  | c :: cs, .single, _, cur, acc =>
    if c = '\'' then shTok cs .norm true cur acc
    else shTok cs .single true (c :: cur) acc
  | c :: cs, .double, _, cur, acc =>
    if c = '"' then shTok cs .norm true cur acc
    else if c = '\\' then
      match cs with
      | [] => none
      | d :: ds =>
        if d = '"' ∨ d = '\\' ∨ d = '$' ∨ d = '\x60' then
          shTok ds .double true (d :: cur) acc
        else shTok ds .double true (d :: '\\' :: cur) acc
    else shTok cs .double true (c :: cur) acc

/-- Tokenize a command line the way a POSIX shell splits it into words
(quoting and escaping honoured, no expansions). -/
def tokenize (s : String) : Option (List String) :=
  shTok s.data .norm false [] []

/-- Sanity checks of the tokenizer on concrete command lines: blank
splitting, backslash escapes, single quotes, an empty quoted token, double
quotes adjoining a bare token, and an unterminated quote. -/
theorem tokenize_sanity :
    tokenize "a b" = some ["a", "b"]
    ∧ tokenize "a\\ b  'c d'" = some ["a b", "c d"]
    ∧ tokenize "''" = some [""]
    ∧ tokenize "\"x y\"z" = some ["x yz"]
    ∧ tokenize "'oops" = none := by
  decide

/-- Sanity checks of the escaping rules on concrete strings. -/
theorem escaping_sanity :
    cmd "ab" = "ab" ∧ cmd "a b" = "'a b'" ∧ cmdEscape "a b" = "a\\ b" := by
  decide

/-- A plain descriptor named `demo`, no optional fields, no socket. -/
def exCfg : Config :=
  ⟨"demo", "Demo", "Demo service", "/usr/bin/demo", ["-p", "80 81"],
   "", "", "", "022", "1024", false, "", "", false, "", ""⟩

/-- Like `exCfg` but with socket activation requested. -/
def exCfgSocket : Config :=
  ⟨"demo", "Demo", "Demo service", "/usr/bin/demo", ["-p", "80 81"],
   "", "", "", "022", "1024", true, "Demo socket", "8080", false, "", ""⟩

/-- Like `exCfg` but configured as a user-scope service. -/
def exCfgUser : Config :=
  ⟨"demo", "Demo", "Demo service", "/usr/bin/demo", ["-p", "80 81"],
   "", "", "", "022", "1024", false, "", "", true, "", ""⟩

/-- A control-plane oracle on which every command succeeds. -/
def allOk : List String → Bool := fun _ => true

/-- C6: a user-scope descriptor is rejected with the fixed sentinel before
any path is computed: `Install` returns `errNoUserServiceSystemd`, leaves
the filesystem untouched and issues no control-plane command. -/
theorem user_service_install_rejected (c : Config) (ρ : List String → Bool)
    (fs : FS) (h : c.UserService = true) :
    Install c ρ fs = ⟨some .noUserService, fs, []⟩ := by
  simp [Install, configPath, h]

/-- Witness for `user_service_install_rejected` at a concrete descriptor. -/
theorem user_service_install_rejected_witness :
    Install exCfgUser allOk [] = ⟨some .noUserService, [], []⟩ :=
  user_service_install_rejected exCfgUser allOk [] rfl

/-- C10: on a user-scope descriptor, `Uninstall` runs the control-plane
`disable` command first and only then fails with the user-scope sentinel,
so the error return does not mean the control plane was left untouched. -/
theorem uninstall_user_disable_first (c : Config) (ρ : List String → Bool)
    (fs : FS) (h : c.UserService = true) (hd : ρ (disableCmdOf c) = true) :
    Uninstall c ρ fs = ⟨some .noUserService, fs, [disableCmdOf c]⟩ := by
  simp [Uninstall, configPath, h, hd]

/-- Witness for `uninstall_user_disable_first` at a concrete descriptor. -/
theorem uninstall_user_disable_first_witness :
    Uninstall exCfgUser allOk [] =
      ⟨some .noUserService, [], [disableCmdOf exCfgUser]⟩ :=
  uninstall_user_disable_first exCfgUser allOk [] rfl rfl

/-- C5: `Run` invokes the start hook first and returns its error without a
stop invocation when it fails; on success with blocking enabled the stop
hook runs exactly once, after the signal wait, and `Run` returns the stop
hook's result; with blocking disabled the stop hook runs immediately after
start with no signal wait. -/
theorem run_hook_order (s t : Option String) (b : Bool) :
    (∀ e, s = some e → Run s t b = (some e, [.started]))
    ∧ (s = none → b = true →
        Run s t b = (t, [.started, .waitedSignal, .stopped]))
    ∧ (s = none → b = false →
        Run s t b = (t, [.started, .stopped])) := by
  refine ⟨?_, ?_, ?_⟩
  · intro e he
    simp [Run, he]
  · intro hs hb
    simp [Run, hs, hb]
  · intro hs hb
    simp [Run, hs, hb]

/-- Witness for `run_hook_order`: all three branches at concrete hooks. -/
theorem run_hook_order_witness :
    Run (some "boom") (some "stopfail") true = (some "boom", [.started])
    ∧ Run none (some "stopfail") true =
        (some "stopfail", [.started, .waitedSignal, .stopped])
    ∧ Run none none false = (none, [.started, .stopped]) :=
  ⟨(run_hook_order (some "boom") (some "stopfail") true).1 "boom" rfl,
   (run_hook_order none (some "stopfail") true).2.1 rfl rfl,
   (run_hook_order none none false).2.2 rfl rfl⟩

/-- C4: for a non-user-scope descriptor, `Uninstall` performs exactly
`disable` → remove unit file → remove socket file: the only control-plane
command ever issued is `disable`; a failed `disable` leaves the filesystem
untouched; a missing unit file aborts before the socket removal; the
socket removal is attempted unconditionally (no `WithSocket` hypothesis
appears anywhere) and its failure on a missing socket file propagates
after the unit file was already removed. -/
theorem uninstall_fixed_sequence (c : Config) (ρ : List String → Bool)
    (fs : FS) (h : c.UserService = false) :
    (Uninstall c ρ fs).cmds = [disableCmdOf c]
    ∧ (ρ (disableCmdOf c) = false →
        Uninstall c ρ fs =
          ⟨some (.runFailed (disableCmdOf c)), fs, [disableCmdOf c]⟩)
    ∧ (ρ (disableCmdOf c) = true →
        fsHas fs (serviceUnitPath c) = false →
        Uninstall c ρ fs =
          ⟨some (.removeFailed (serviceUnitPath c)), fs, [disableCmdOf c]⟩)
    ∧ (ρ (disableCmdOf c) = true →
        fsHas fs (serviceUnitPath c) = true →
        fsHas (fsErase fs (serviceUnitPath c)) (socketPath c) = false →
        Uninstall c ρ fs =
          ⟨some (.removeFailed (socketPath c)),
           fsErase fs (serviceUnitPath c), [disableCmdOf c]⟩)
    ∧ (ρ (disableCmdOf c) = true →
        fsHas fs (serviceUnitPath c) = true →
        fsHas (fsErase fs (serviceUnitPath c)) (socketPath c) = true →
        Uninstall c ρ fs =
          ⟨none, fsErase (fsErase fs (serviceUnitPath c)) (socketPath c),
           [disableCmdOf c]⟩) := by
  have hcp : configPath c = .ok (serviceUnitPath c) := by
    simp [configPath, h, serviceUnitPath]
  by_cases hd : ρ (disableCmdOf c)
  · by_cases h1 : fsHas fs (serviceUnitPath c)
    · by_cases h2 : fsHas (fsErase fs (serviceUnitPath c)) (socketPath c)
      · simp [Uninstall, hcp, hd, h1, h2, fsRemove]
      · simp [Uninstall, hcp, hd, h1, h2, fsRemove]
    · simp [Uninstall, hcp, hd, h1, fsRemove]
  · simp [Uninstall, hd]

/-- Witness for `uninstall_fixed_sequence`: a filesystem holding both the
unit file and the socket file is cleaned up after a successful `disable`,
with `disable` as the only control-plane command. -/
theorem uninstall_fixed_sequence_witness :
    (Uninstall exCfg allOk
        [(serviceUnitPath exCfg, "svc"), (socketPath exCfg, "sock")]).cmds =
      [disableCmdOf exCfg]
    ∧ Uninstall exCfg allOk
        [(serviceUnitPath exCfg, "svc"), (socketPath exCfg, "sock")] =
      ⟨none,
       fsErase (fsErase [(serviceUnitPath exCfg, "svc"), (socketPath exCfg, "sock")]
           (serviceUnitPath exCfg)) (socketPath exCfg),
       [disableCmdOf exCfg]⟩ :=
  ⟨(uninstall_fixed_sequence exCfg allOk
      [(serviceUnitPath exCfg, "svc"), (socketPath exCfg, "sock")] rfl).1,
   (uninstall_fixed_sequence exCfg allOk
      [(serviceUnitPath exCfg, "svc"), (socketPath exCfg, "sock")] rfl).2.2.2.2
     rfl (by decide) (by decide)⟩

/-- A freshly written file exists. -/
theorem fsHas_write_self (fs : FS) (p v : String) :
    fsHas (fsWrite fs p v) p = true := by
  simp [fsHas, fsWrite]

/-- Writing another file preserves existence. -/
theorem fsHas_write_of (fs : FS) (p q v : String)
    (h : fsHas fs p = true) : fsHas (fsWrite fs q v) p = true := by
  simp only [fsHas, fsWrite, List.any_cons]
  simp only [fsHas] at h
  simp [h]

/-- If an `Install` returned a nil error, the descriptor was not user-scope
and the resulting filesystem holds the unit file. -/
theorem install_ok_unit_present (c : Config) (ρ : List String → Bool)
    (fs : FS) (h : (Install c ρ fs).res = none) :
    c.UserService = false
    ∧ fsHas (Install c ρ fs).fs (serviceUnitPath c) = true := by
  by_cases hu : c.UserService
  · simp [Install, configPath, hu] at h
  · have hcp : configPath c = .ok (serviceUnitPath c) := by
      simp [configPath, hu, serviceUnitPath]
    refine ⟨by simpa using hu, ?_⟩
    simp only [Install, hcp] at h ⊢
    by_cases h1 : fsHas fs (serviceUnitPath c) = true
    · rw [if_pos h1] at h
      simp at h
    · rw [if_neg h1] at h ⊢
      by_cases he : ρ (enableCmdOf c) = true
      · rw [if_pos he] at h ⊢
        by_cases hw : c.WithSocket = true
        · rw [if_pos hw] at h ⊢
          by_cases h2 : fsHas (fsWrite fs (serviceUnitPath c) (systemdScript c))
              (socketPath c) = true
          · rw [if_pos h2] at h
            simp at h
          · rw [if_neg h2] at h ⊢
            by_cases hr : ρ reloadCmd = true
            · rw [if_pos hr]
              exact fsHas_write_of _ _ _ _ (fsHas_write_self _ _ _)
            · rw [if_neg hr]
              exact fsHas_write_of _ _ _ _ (fsHas_write_self _ _ _)
        · rw [if_neg hw] at h ⊢
          by_cases hr : ρ reloadCmd = true
          · rw [if_pos hr]
            exact fsHas_write_self _ _ _
          · rw [if_neg hr]
            exact fsHas_write_self _ _ _
      · rw [if_neg he] at h
        simp at h

/-- `Install` on a filesystem already holding the unit file fails with the
already-exists error, changes nothing and issues no command. -/
theorem install_on_existing (c : Config) (ρ : List String → Bool) (fs : FS)
    (hu : c.UserService = false)
    (h : fsHas fs (serviceUnitPath c) = true) :
    Install c ρ fs = ⟨some (.alreadyExists (serviceUnitPath c)), fs, []⟩ := by
  have hcp : configPath c = .ok (serviceUnitPath c) := by
    simp [configPath, hu, serviceUnitPath]
  simp only [Install, hcp]
  rw [if_pos h]

/-- C3: once a first `Install` has succeeded, a second `Install` with the
same name fails with the already-exists error and issues no control-plane
command at all on that second attempt (the filesystem is untouched too). -/
theorem second_install_already_exists (c : Config) (ρ ρ2 : List String → Bool)
    (fs : FS) (h : (Install c ρ fs).res = none) :
    Install c ρ2 (Install c ρ fs).fs =
      ⟨some (.alreadyExists (serviceUnitPath c)), (Install c ρ fs).fs, []⟩ := by
  obtain ⟨hu, hhas⟩ := install_ok_unit_present c ρ fs h
  exact install_on_existing c ρ2 _ hu hhas

/-- Witness for `second_install_already_exists`: installing `demo` twice on
an initially empty filesystem. -/
theorem second_install_already_exists_witness :
    Install exCfg allOk (Install exCfg allOk []).fs =
      ⟨some (.alreadyExists (serviceUnitPath exCfg)),
       (Install exCfg allOk []).fs, []⟩ :=
  second_install_already_exists exCfg allOk allOk [] (by decide)

/-- The ordering claimed for `Install`: the socket-file existence check
(and render/write) happens first, before the unit is registered via
`enable`.  If that were the order, a pre-existing socket file would abort
`Install` before any control-plane command is issued. -/
def installSocketStepsBeforeEnable : Prop :=
  ∀ (c : Config) (ρ : List String → Bool) (fs : FS),
    c.UserService = false → c.WithSocket = true →
    fsHas fs (serviceUnitPath c) = false →
    fsHas fs (socketPath c) = true →
    (Install c ρ fs).cmds = []

/-- C1 counterexample: the socket steps do not precede `enable`.  With a
stale socket file already present, `Install` fails at the socket-existence
check but has already issued the `enable` command. -/
theorem install_socket_before_enable_refuted :
    ¬ installSocketStepsBeforeEnable := by
  intro hcl
  have h := hcl exCfgSocket allOk [(socketPath exCfgSocket, "stale")]
    rfl rfl (by decide) (by decide)
  exact absurd h (by decide)

/-- C1 as amended: after the service unit file is written, `Install` first
registers the unit via `enable`; only then, when socket activation is
requested, come the socket-file existence check, render and write; the
daemon reload is the final step.  Concretely: if `enable` fails, the unit
file is on disk but no socket file was written and `enable` is the whole
trace; if the socket file already exists, `enable` has already run and no
reload happens; on full success the trace is `enable` then `daemon-reload`
and both files are on disk. -/
theorem install_enable_then_socket_then_reload (c : Config)
    (ρ : List String → Bool) (fs : FS)
    (hu : c.UserService = false) (hw : c.WithSocket = true)
    (h1 : fsHas fs (serviceUnitPath c) = false) :
    (ρ (enableCmdOf c) = false →
      Install c ρ fs =
        ⟨some (.runFailed (enableCmdOf c)),
         fsWrite fs (serviceUnitPath c) (systemdScript c), [enableCmdOf c]⟩)
    ∧ (ρ (enableCmdOf c) = true →
       fsHas (fsWrite fs (serviceUnitPath c) (systemdScript c)) (socketPath c) = true →
       Install c ρ fs =
         ⟨some (.socketExists (socketPath c)),
          fsWrite fs (serviceUnitPath c) (systemdScript c), [enableCmdOf c]⟩)
    ∧ (ρ (enableCmdOf c) = true →
       fsHas (fsWrite fs (serviceUnitPath c) (systemdScript c)) (socketPath c) = false →
       ρ reloadCmd = true →
       Install c ρ fs =
         ⟨none,
          fsWrite (fsWrite fs (serviceUnitPath c) (systemdScript c)) (socketPath c)
            (systemdSocket c),
          [enableCmdOf c, reloadCmd]⟩) := by
  have hcp : configPath c = .ok (serviceUnitPath c) := by
    simp [configPath, hu, serviceUnitPath]
  refine ⟨?_, ?_, ?_⟩
  · intro he
    simp only [Install, hcp]
    rw [if_neg (by simp [h1]), if_neg (by simp [he])]
  · intro he h2
    simp only [Install, hcp]
    rw [if_neg (by simp [h1]), if_pos he, if_pos hw, if_pos h2]
  · intro he h2 hr
    simp only [Install, hcp]
    rw [if_neg (by simp [h1]), if_pos he, if_pos hw, if_neg (by simp [h2]),
      if_pos hr]

/-- Witness for `install_enable_then_socket_then_reload`: the successful
branch at a concrete socket-activated descriptor on an empty filesystem. -/
theorem install_enable_then_socket_then_reload_witness :
    Install exCfgSocket allOk [] =
      ⟨none,
       fsWrite (fsWrite [] (serviceUnitPath exCfgSocket) (systemdScript exCfgSocket))
         (socketPath exCfgSocket) (systemdSocket exCfgSocket),
       [enableCmdOf exCfgSocket, reloadCmd]⟩ :=
  (install_enable_then_socket_then_reload exCfgSocket allOk [] rfl rfl
    (by decide)).2.2 rfl (by decide) rfl

/-- C8: when socket activation is requested and `Install` succeeds, both
the `.service` and the `.socket` file are on disk; the socket file's text
is the rendered socket template, whose `ListenStream=` line carries
`SocketPort` verbatim and whose `Description=` line carries
`SocketDescription` verbatim. -/
theorem install_socket_files (c : Config) (ρ : List String → Bool) (fs : FS)
    (hw : c.WithSocket = true) (h : (Install c ρ fs).res = none) :
    fsHas (Install c ρ fs).fs (serviceUnitPath c) = true
    ∧ fsGet (Install c ρ fs).fs (socketPath c) = some (systemdSocket c)
    ∧ ("ListenStream=" ++ c.SocketPort) ∈ systemdSocketLines c
    ∧ ("Description=" ++ c.SocketDescription) ∈ systemdSocketLines c := by
  obtain ⟨hu, hhas⟩ := install_ok_unit_present c ρ fs h
  refine ⟨hhas, ?_, by simp [systemdSocketLines], by simp [systemdSocketLines]⟩
  have hcp : configPath c = .ok (serviceUnitPath c) := by
    simp [configPath, hu, serviceUnitPath]
  simp only [Install, hcp] at h ⊢
  by_cases h1 : fsHas fs (serviceUnitPath c) = true
  · rw [if_pos h1] at h
    simp at h
  · rw [if_neg h1] at h ⊢
    by_cases he : ρ (enableCmdOf c) = true
    · rw [if_pos he] at h ⊢
      rw [if_pos hw] at h ⊢
      by_cases h2 : fsHas (fsWrite fs (serviceUnitPath c) (systemdScript c))
          (socketPath c) = true
      · rw [if_pos h2] at h
        simp at h
      · rw [if_neg h2] at h ⊢
        by_cases hr : ρ reloadCmd = true
        · rw [if_pos hr]
          simp [fsGet, fsWrite]
        · rw [if_neg hr] at h
          simp at h
    · rw [if_neg he] at h
      simp at h

/-- Witness for `install_socket_files` at a concrete descriptor: port
`8080` and description `Demo socket` land verbatim in the socket unit. -/
theorem install_socket_files_witness :
    fsHas (Install exCfgSocket allOk []).fs (serviceUnitPath exCfgSocket) = true
    ∧ fsGet (Install exCfgSocket allOk []).fs (socketPath exCfgSocket) =
        some (systemdSocket exCfgSocket)
    ∧ ("ListenStream=" ++ exCfgSocket.SocketPort) ∈ systemdSocketLines exCfgSocket
    ∧ ("Description=" ++ exCfgSocket.SocketDescription) ∈ systemdSocketLines exCfgSocket :=
  install_socket_files exCfgSocket allOk [] rfl (by decide)

/-- Reading no input in word-accumulation state emits the pending word. -/
theorem shTok_nil_norm (iW : Bool) (cur : List Char) (acc : List String) :
    shTok [] .norm iW cur acc =
      some (if iW then acc ++ [String.mk cur.reverse] else acc) := by
  rw [shTok]

/-- A blank outside quotes closes the pending word. -/
theorem shTok_space (cs : List Char) (iW : Bool) (cur : List Char)
    (acc : List String) :
    shTok (' ' :: cs) .norm iW cur acc =
      shTok cs .norm false [] (if iW then acc ++ [String.mk cur.reverse] else acc) := by
  cases cs <;> (conv_lhs => rw [shTok]) <;> rw [if_pos (Or.inl rfl)]

/-- A single quote outside quotes enters single-quote mode. -/
theorem shTok_squote_norm (cs : List Char) (iW : Bool) (cur : List Char)
    (acc : List String) :
    shTok ('\'' :: cs) .norm iW cur acc = shTok cs .single true cur acc := by
  cases cs <;> (conv_lhs => rw [shTok]) <;> rw [if_neg (by decide), if_pos rfl]

/-- A backslash outside quotes makes the next character literal. -/
theorem shTok_backslash_norm (d : Char) (ds : List Char) (iW : Bool)
    (cur : List Char) (acc : List String) :
    shTok ('\\' :: d :: ds) .norm iW cur acc =
      shTok ds .norm true (d :: cur) acc := by
  conv_lhs => rw [shTok]
  rw [if_neg (by decide), if_neg (by decide), if_neg (by decide), if_pos rfl]

/-- A non-special character outside quotes is consumed literally. -/
theorem shTok_plain_norm (c : Char) (cs : List Char) (iW : Bool)
    (cur : List Char) (acc : List String)
    (h : isShellSpecialChar c = false) :
    shTok (c :: cs) .norm iW cur acc = shTok cs .norm true (c :: cur) acc := by
  have hsep : ¬(c = ' ' ∨ c = '\t' ∨ c = '\n') := by
    rintro (rfl | rfl | rfl) <;> exact absurd h (by decide)
  have hq : ¬c = '\'' := by rintro rfl; exact absurd h (by decide)
  have hdq : ¬c = '"' := by rintro rfl; exact absurd h (by decide)
  have hbs : ¬c = '\\' := by rintro rfl; exact absurd h (by decide)
  cases cs <;> (conv_lhs => rw [shTok]) <;>
    rw [if_neg hsep, if_neg hq, if_neg hdq, if_neg hbs]

/-- A single quote in single-quote mode returns to normal mode. -/
theorem shTok_squote_close (cs : List Char) (iW : Bool) (cur : List Char)
    (acc : List String) :
    shTok ('\'' :: cs) .single iW cur acc = shTok cs .norm true cur acc := by
  cases cs <;> (conv_lhs => rw [shTok]) <;> rw [if_pos rfl]

/-- Any other character in single-quote mode is consumed literally. -/
theorem shTok_single_plain (c : Char) (cs : List Char) (iW : Bool)
    (cur : List Char) (acc : List String) (h : ¬c = '\'') :
    shTok (c :: cs) .single iW cur acc =
      shTok cs .single true (c :: cur) acc := by
  cases cs <;> (conv_lhs => rw [shTok]) <;> rw [if_neg h]

/-- Consuming a backslash-escaped string outside quotes accumulates its
characters literally into the pending word. -/
theorem shTok_escaped (s rest : List Char) (iW : Bool) (cur : List Char)
    (acc : List String) :
    shTok ((s.map escChar).flatten ++ rest) .norm iW cur acc =
      shTok rest .norm (iW || !s.isEmpty) (s.reverse ++ cur) acc := by
  induction s generalizing iW cur with
  | nil => simp
  | cons c cs ih =>
    by_cases hc : isShellSpecialChar c = true
    · have hesc : escChar c = ['\\', c] := by simp [escChar, hc]
      simp only [List.map_cons, List.flatten_cons, hesc, List.append_assoc,
        List.cons_append, List.nil_append]
      rw [shTok_backslash_norm, ih]
      simp [List.append_assoc]
    · have hesc : escChar c = [c] := by
        simp only [escChar]
        rw [if_neg hc]
      simp only [List.map_cons, List.flatten_cons, hesc, List.append_assoc,
        List.cons_append, List.nil_append]
      rw [shTok_plain_norm _ _ _ _ _ (by simpa using hc), ih]
      simp [List.append_assoc]

/-- Consuming a single-quoted body (with quote characters re-escaped) up to
its closing quote accumulates the original characters into the pending
word and returns to normal mode. -/
theorem shTok_sq_body (s : List Char) (rest : List Char) (iW : Bool)
    (cur : List Char) (acc : List String) :
    shTok ((s.map sqEsc).flatten ++ ('\'' :: rest)) .single iW cur acc =
      shTok rest .norm true (s.reverse ++ cur) acc := by
  induction s generalizing iW cur with
  | nil => simp [shTok_squote_close]
  | cons c cs ih =>
    by_cases hc : c = '\''
    · subst hc
      have hesc : sqEsc '\'' = ['\'', '\\', '\'', '\''] := by simp [sqEsc]
      simp only [List.map_cons, List.flatten_cons, hesc, List.append_assoc,
        List.cons_append, List.nil_append]
      rw [shTok_squote_close, shTok_backslash_norm, shTok_squote_norm, ih]
      simp [List.append_assoc]
    · have hesc : sqEsc c = [c] := by
        simp only [sqEsc]
        rw [if_neg hc]
      simp only [List.map_cons, List.flatten_cons, hesc, List.append_assoc,
        List.cons_append, List.nil_append]
      rw [shTok_single_plain _ _ _ _ _ hc, ih]
      simp [List.append_assoc]

/-- Consuming a nonempty run of non-special characters outside quotes
accumulates them literally into the pending word. -/
theorem shTok_plain_run (l rest : List Char) :
    ∀ (iW : Bool) (cur : List Char) (acc : List String), l ≠ [] →
    (∀ x ∈ l, isShellSpecialChar x = false) →
    shTok (l ++ rest) .norm iW cur acc =
      shTok rest .norm true (l.reverse ++ cur) acc := by
  induction l with
  | nil =>
    intro iW cur acc hne hall
    exact absurd rfl hne
  | cons c cs ih =>
    intro iW cur acc hne hall
    rw [List.cons_append,
      shTok_plain_norm _ _ _ _ _ (hall c (List.mem_cons_self _ _))]
    by_cases hcs : cs = []
    · subst hcs
      simp
    · rw [ih true (c :: cur) acc hcs (fun x hx => hall x (List.mem_cons_of_mem _ hx))]
      simp [List.append_assoc]
/-- Rebuilding a string from its own characters gives it back. -/
theorem mk_data_eq (s : String) : String.mk s.data = s := by
  cases s
  rfl

/-- Consuming one `cmd`-escaped argument outside quotes accumulates exactly
the argument's characters into the pending word. -/
theorem shTok_cmd (s : String) (rest : List Char) (iW : Bool)
    (cur : List Char) (acc : List String) :
    shTok ((cmd s).data ++ rest) .norm iW cur acc =
      shTok rest .norm true (s.data.reverse ++ cur) acc := by
  by_cases hq : needsQuoting s = true
  · have hdata : (cmd s).data = '\'' :: ((s.data.map sqEsc).flatten ++ ['\'']) := by
      simp [cmd, hq]
    rw [hdata, List.cons_append, List.append_assoc, List.singleton_append,
      shTok_squote_norm]
    exact shTok_sq_body _ _ _ _ _
  · have hq' : needsQuoting s = false := by simpa using hq
    have hdata : cmd s = s := by simp [cmd, hq']
    have hne : s.data ≠ [] := by
      intro h0
      simp [needsQuoting, h0] at hq'
    have hall : ∀ x ∈ s.data, isShellSpecialChar x = false := by
      have h2 : s.data.any isShellSpecialChar = false := by
        simp only [needsQuoting, Bool.or_eq_false_iff] at hq'
        exact hq'.2
      intro x hx
      have := List.any_eq_false.mp h2 x hx
      simpa using this
    rw [hdata]
    exact shTok_plain_run _ _ _ _ _ hne hall

/-- The characters of the rendered `ExecStart=` value: the escaped path
followed by a blank and a `cmd`-escaped token per argument. -/
theorem execStartValue_data (p : String) (args : List String) :
    (execStartValue p args).data =
      (p.data.map escChar).flatten ++
        (args.map (fun a => ' ' :: (cmd a).data)).flatten := by
  have hgen : ∀ (init : String),
      (args.foldl (fun acc a => acc ++ " " ++ cmd a) init).data =
        init.data ++ (args.map (fun a => ' ' :: (cmd a).data)).flatten := by
    intro init
    induction args generalizing init with
    | nil => simp
    | cons a as ih =>
      have hsp : (" " : String).data = [' '] := rfl
      simp only [List.foldl_cons, List.map_cons, List.flatten_cons]
      rw [ih]
      simp [String.data_append, hsp, List.append_assoc]
  have := hgen (cmdEscape p)
  simpa [execStartValue, cmdEscape] using this

/-- Consuming the blank-separated `cmd`-escaped argument tokens finishes
the pending word and emits each argument as its own word. -/
theorem shTok_args (args : List String) :
    ∀ (cur : List Char) (acc : List String),
    shTok ((args.map (fun a => ' ' :: (cmd a).data)).flatten) .norm true cur acc
      = some (acc ++ String.mk cur.reverse :: args) := by
  induction args with
  | nil =>
    intro cur acc
    simp [shTok_nil_norm]
  | cons a as ih =>
    intro cur acc
    simp only [List.map_cons, List.flatten_cons, List.cons_append]
    rw [shTok_space, if_pos rfl, shTok_cmd, ih]
    simp [mk_data_eq, List.append_assoc]

/-- The round-trip claim as stated: whenever the path or some argument
contains whitespace or a shell metacharacter, tokenizing the rendered
`ExecStart=` value with the POSIX tokenizer returns exactly the path
followed by the arguments. -/
def execStartRoundTripClaim : Prop :=
  ∀ (path : String) (args : List String),
    (path.data.any isShellSpecialChar = true
      ∨ ∃ a ∈ args, a.data.any isShellSpecialChar = true) →
    tokenize (execStartValue path args) = some (path :: args)

/-- C7 counterexample: an empty executable path escapes to the empty
string, so its token vanishes — with path `""` and the single argument
`" "` (which puts the descriptor inside the claim's scope) tokenizing
yields `[" "]`, not `["", " "]`. -/
theorem execstart_roundtrip_empty_path_refuted : ¬ execStartRoundTripClaim := by
  intro hcl
  have h := hcl "" [" "] (Or.inr ⟨" ", by decide, by decide⟩)
  exact absurd h (by decide)

/-- C7 as amended: for every descriptor with a nonempty executable path,
tokenizing the rendered `ExecStart=` value with a POSIX-shell-compatible
tokenizer yields exactly `[Path] + Arguments` as literal strings —
whatever whitespace or metacharacters the path and arguments contain, and
including empty arguments. -/
theorem execstart_tokenize_roundtrip (path : String) (args : List String)
    (hp : path ≠ "") :
    tokenize (execStartValue path args) = some (path :: args) := by
  have hpd : path.data ≠ [] := by
    intro h0
    apply hp
    rw [← mk_data_eq path, h0]
  unfold tokenize
  rw [execStartValue_data, shTok_escaped]
  have hflag : (false || !path.data.isEmpty) = true := by
    cases hd : path.data with
    | nil => exact absurd hd hpd
    | cons x xs => rfl
  rw [hflag, shTok_args]
  simp [mk_data_eq]

/-- Witness for `execstart_tokenize_roundtrip`: a path with blanks and
arguments with blanks, a quote, an empty string and a metacharacter. -/
theorem execstart_tokenize_roundtrip_witness :
    tokenize (execStartValue "/opt/my app/bin" ["a b", "it's", "", "$HOME"]) =
      some ["/opt/my app/bin", "a b", "it's", "", "$HOME"] :=
  execstart_tokenize_roundtrip "/opt/my app/bin" ["a b", "it's", "", "$HOME"]
    (by decide)

/-- Does `s` start with the pattern `p`, comparing underlying characters? -/
def startsWithS (p s : String) : Bool :=
  p.data.isPrefixOf s.data

/-- Do two character lists disagree at some position below both lengths? -/
def prefMismatch : List Char → List Char → Bool
  | [], _ => false
  | _, [] => false
  | x :: xs, y :: ys => x != y || prefMismatch xs ys

/-- A pattern that disagrees with `a` at some shared position is not a
prefix of `a ++ b`, whatever `b` is. -/
theorem isPrefixOf_append_false_of_mismatch (p a b : List Char)
    (h : prefMismatch p a = true) : p.isPrefixOf (a ++ b) = false := by
  induction p generalizing a with
  | nil => simp [prefMismatch] at h
  | cons x xs ih =>
    cases a with
    | nil => simp [prefMismatch] at h
    | cons y ys =>
      simp only [prefMismatch, Bool.or_eq_true, bne_iff_ne] at h
      rcases h with hxy | hrest
      · have hb : (x == y) = false := beq_eq_false_iff_ne.mpr hxy
        simp [List.isPrefixOf, hb]
      · have := ih ys hrest
        simp [List.isPrefixOf, this]

/-- String-level version of `isPrefixOf_append_false_of_mismatch`. -/
theorem startsWithS_append_false (p a t : String)
    (h : prefMismatch p.data a.data = true) :
    startsWithS p (a ++ t) = false := by
  unfold startsWithS
  rw [String.data_append]
  exact isPrefixOf_append_false_of_mismatch _ _ _ h

/-- The reading of the claim that absent optional fields leave no line at
all: on a descriptor with every optional field absent, the rendered lines
would be exactly the template lines with the five conditional lines
deleted outright. -/
def noLineForAbsentFields : Prop :=
  ∀ c : Config,
    c.ChRoot = "" → c.WorkingDirectory = "" → c.UserName = "" →
    c.ReloadSignal = "" → c.PIDFile = "" →
    systemdScriptLines c =
      ["[Unit]",
       "Description=" ++ c.Description,
       "ConditionFileIsExecutable=" ++ cmdEscape c.Path,
       "## Uncomment for socket-based activation",
       "#Requires=" ++ (c.Name ++ ".socket"),
       "",
       "[Service]",
       "## Uncomment for socket-based activation",
       "#NonBlocking=true",
       "",
       "StartLimitInterval=5",
       "StartLimitBurst=10",
       "LimitNOFILE=" ++ c.LimitNOFILE,
       "ExecStart=" ++ execStartValue c.Path c.Arguments,
       "UMask=" ++ c.UMask,
       "Restart=always",
       "RestartSec=120",
       "EnvironmentFile=-/etc/sysconfig/" ++ c.Name,
       "",
       "[Install]",
       "WantedBy=multi-user.target"]

/-- C2 counterexample: a false `{{if}}` still emits the newline that
follows its `{{end}}` in the template text, so each absent optional field
leaves a blank line; the rendered lines are not the field lines simply
deleted. -/
theorem optional_fields_blank_lines_counterexample : ¬ noLineForAbsentFields := by
  intro hcl
  have h := hcl exCfg rfl rfl rfl rfl rfl
  exact absurd h (by decide)

/-- C2 as amended: when an optional field (`ChRoot`, `WorkingDirectory`,
`UserName`, reload signal, PID file) is absent, the rendered unit has no
`RootDirectory=` / `WorkingDirectory=` / `User=` / `ExecReload=` /
`PIDFile=` line — but the line count stays 26 whatever the descriptor:
each absent field leaves one blank line where its line would be. -/
theorem optional_fields_absent_no_lines (c : Config) :
    (c.ChRoot = "" →
      (systemdScriptLines c).all (fun l => !(startsWithS "RootDirectory=" l)) = true)
    ∧ (c.WorkingDirectory = "" →
      (systemdScriptLines c).all (fun l => !(startsWithS "WorkingDirectory=" l)) = true)
    ∧ (c.UserName = "" →
      (systemdScriptLines c).all (fun l => !(startsWithS "User=" l)) = true)
    ∧ (c.ReloadSignal = "" →
      (systemdScriptLines c).all (fun l => !(startsWithS "ExecReload=" l)) = true)
    ∧ (c.PIDFile = "" →
      (systemdScriptLines c).all (fun l => !(startsWithS "PIDFile=" l)) = true)
    ∧ (systemdScriptLines c).length = 26 := by
  refine ⟨?_, ?_, ?_, ?_, ?_, rfl⟩ <;>
  · intro h
    rw [List.all_eq_true]
    intro l hl
    unfold systemdScriptLines at hl
    fin_cases hl <;>
      first
        | decide
        | (rw [startsWithS_append_false _ _ _ (by decide)]; decide)
        | (rw [h]; decide)
        | (split <;>
            first
              | decide
              | (rw [startsWithS_append_false _ _ _ (by decide)]; decide))

/-- Witness for `optional_fields_absent_no_lines` at a concrete descriptor
with no optional fields. -/
theorem optional_fields_absent_no_lines_witness :
    (systemdScriptLines exCfg).all (fun l => !(startsWithS "RootDirectory=" l)) = true
    ∧ (systemdScriptLines exCfg).all (fun l => !(startsWithS "WorkingDirectory=" l)) = true
    ∧ (systemdScriptLines exCfg).all (fun l => !(startsWithS "User=" l)) = true
    ∧ (systemdScriptLines exCfg).all (fun l => !(startsWithS "ExecReload=" l)) = true
    ∧ (systemdScriptLines exCfg).all (fun l => !(startsWithS "PIDFile=" l)) = true :=
  ⟨(optional_fields_absent_no_lines exCfg).1 rfl,
   (optional_fields_absent_no_lines exCfg).2.1 rfl,
   (optional_fields_absent_no_lines exCfg).2.2.1 rfl,
   (optional_fields_absent_no_lines exCfg).2.2.2.1 rfl,
   (optional_fields_absent_no_lines exCfg).2.2.2.2.1 rfl⟩

/-- C9: every rendered service unit carries the fixed template policy:
`Restart=always`, `RestartSec=120`, `StartLimitBurst=10`,
`StartLimitInterval=5`, and a `-`-prefixed (missing-file-tolerant)
environment file reference at the name-derived path — for every
descriptor, since these are template constants. -/
theorem fixed_policy_lines (c : Config) :
    "Restart=always" ∈ systemdScriptLines c
    ∧ "RestartSec=120" ∈ systemdScriptLines c
    ∧ "StartLimitBurst=10" ∈ systemdScriptLines c
    ∧ "StartLimitInterval=5" ∈ systemdScriptLines c
    ∧ ("EnvironmentFile=-/etc/sysconfig/" ++ c.Name) ∈ systemdScriptLines c := by
  refine ⟨?_, ?_, ?_, ?_, ?_⟩ <;>
    · unfold systemdScriptLines
      repeat first
        | exact List.mem_cons_self _ _
        | apply List.mem_cons_of_mem
